import Mathlib

/-!
Verification of the leaflets2ndx program (src/main.c): a shallow embedding of
its data model and core routines, followed by theorems about the embedded
definitions.  The program classifies lipid residues of a membrane into the
upper or lower leaflet by the position of a unique marker (phosphate) atom
relative to the membrane center of geometry along the z axis, and aggregates
the residues into 2K index groups (K species, lower/upper each).

The functions of the external groan library (selection splitting,
intersection, center of geometry, 1D periodic distance, residue-name lists)
are not part of the repository; they are modelled here from the
specification of their behaviour, while everything in main.c
(create_groups, the argument parser, the output writing loop and the main
driver) is translated directly from the source.
-/

namespace Leaflets

/-- A 3D vector of rational coordinates, modelling groan's vec_t of floats. -/
structure Vec3 where
  x : Rat
  y : Rat
  z : Rat
deriving DecidableEq

/-- One of the three coordinate axes, modelling groan's dimension constants. -/
inductive Dim where
  | x
  | y
  | z
deriving DecidableEq

/-- Component of a vector along an axis. -/
def vcomp (v : Vec3) : Dim → Rat
  | Dim.x => v.x
  | Dim.y => v.y
  | Dim.z => v.z

/-- Modelled from the spec (groan library, not in src/): fold a signed 1D
displacement into the periodic box of edge length L (minimum-image
wrap-around along one axis). -/
def wrap1D (d L : Rat) : Rat :=
  if L / 2 < d then d - L
  else if d < -(L / 2) then d + L
  else d

/-- Modelled from the spec (groan library function distance1D, not in src/):
signed periodic displacement between two points along one axis. -/
def distance1D (a b : Vec3) (dim : Dim) (box : Vec3) : Rat :=
  wrap1D (vcomp a dim - vcomp b dim) (vcomp box dim)

/-- An atom as used by the core: 1-based gmx atom number, residue number,
residue (species) name and position.  Immutable once loaded. -/
structure Atom where
  gmx_atom_number : Nat
  residue_number : Int
  residue_name : String
  position : Vec3
deriving DecidableEq

/-- A selection is an ordered sequence of atom references. -/
abbrev Selection := List Atom

/-- First-occurrence deduplication, helper carrying the elements already
emitted. -/
def dedupFirstAux {α : Type} [DecidableEq α] : List α → List α → List α
  | _, [] => []
  | seen, x :: xs =>
    if x ∈ seen then dedupFirstAux seen xs
    else x :: dedupFirstAux (x :: seen) xs

/-- First-occurrence deduplication, used to model the ordered sets of
distinct residue numbers and residue names (spec: first-occurrence order). -/
def dedupFirst {α : Type} [DecidableEq α] (l : List α) : List α :=
  dedupFirstAux [] l

/-- Modelled from the spec (groan selection_splitbyres, not in src/): stable
partition of a selection by residue number, groups ordered by first
appearance of each residue number. -/
def selection_splitbyres (sel : Selection) : List Selection :=
  (dedupFirst (sel.map (fun a => a.residue_number))).map
    (fun r => sel.filter (fun a => decide (a.residue_number = r)))

/-- Modelled from the spec (groan selection_getresnames, not in src/): the
distinct residue names of a selection in first-occurrence order. -/
def selection_getresnames (sel : Selection) : List String :=
  dedupFirst (sel.map (fun a => a.residue_name))

/-- Modelled from the spec (groan selection_intersect, not in src/): the
atoms of the first selection that also belong to the second, in the order
of the first. -/
def selection_intersect (a b : Selection) : Selection :=
  a.filter (fun t => decide (t ∈ b))

/-- Modelled from the spec (groan list_index, not in src/): index of the
first exact match of a name in a string list, or none. -/
def list_index : List String → String → Option Nat
  | [], _ => none
  | x :: xs, s => if x = s then some 0 else (list_index xs s).map (fun i => i + 1)

/-- Modelled from the spec (groan list_get, not in src/): the element of a
string list at an index, or none if out of range. -/
def list_get (l : List String) (i : Nat) : Option String :=
  l.get? i

/-- Modelled from the spec (groan center_of_geometry, not in src/), one
axis: fold every coordinate into the periodic image nearest the reference
coordinate, then average. -/
def center_axis (ref : Rat) (coords : List Rat) (L : Rat) : Rat :=
  (coords.map (fun p => ref + wrap1D (p - ref) L)).sum / (coords.length : Rat)

/-- Modelled from the spec (groan center_of_geometry, not in src/):
periodicity-aware centroid of a selection; fails on an empty selection. -/
def center_of_geometry (sel : Selection) (box : Vec3) : Option Vec3 :=
  match sel with
  | [] => none
  | a :: _ =>
    some ⟨center_axis a.position.x (sel.map (fun t => t.position.x)) box.x,
          center_axis a.position.y (sel.map (fun t => t.position.y)) box.y,
          center_axis a.position.z (sel.map (fun t => t.position.z)) box.z⟩

/-- The errors on which main.c's core aborts (each one maps to an fprintf
plus an early return in the source). -/
inductive CoreError where
  | EmptySplit
  | CenterFail
  | MissingMarker (resname : String) (resid : Int)
  | AmbiguousMarker (resname : String) (resid : Int)
  | UnknownSpecies (resname : String) (resid : Int)
  | IndexOutOfRange (i : Nat) (len : Nat)
deriving DecidableEq

/-- Decidable equality of Except results, used to evaluate the embedded
functions on concrete inputs. -/
instance {E A : Type} [DecidableEq E] [DecidableEq A] : DecidableEq (Except E A) :=
  fun x y =>
  match x, y with
  | Except.ok a, Except.ok b =>
    if h : a = b then isTrue (by rw [h])
    else isFalse (fun hc => h (by injection hc))
  | Except.ok _, Except.error _ => isFalse (fun hc => Except.noConfusion hc)
  | Except.error _, Except.ok _ => isFalse (fun hc => Except.noConfusion hc)
  | Except.error e, Except.error f =>
    if h : e = f then isTrue (by rw [h])
    else isFalse (fun hc => h (by injection hc))

/-- The stderr lines main.c prints for each core error (translated from the
fprintf calls in create_groups and the output loop of main). -/
def error_output : CoreError → List String
  | CoreError.EmptySplit =>
      ["Could not split atoms based on residue number.\n"]
  | CoreError.CenterFail =>
      ["Could not calculate center of geometry for membrane lipids.\n"]
  | CoreError.MissingMarker rn rid =>
      ["No phosphate detected for lipid " ++ rn ++ " (resid " ++ toString rid ++ ").\n"]
  | CoreError.AmbiguousMarker rn rid =>
      ["Multiple phosphates detected for lipid " ++ rn ++ " (resid " ++ toString rid ++ ").\n"]
  | CoreError.UnknownSpecies rn rid =>
      ["Internal Error. Inconsistency in residue names. Residue name " ++ rn ++
         " of resid " ++ toString rid ++ " was not found in a list of detected residue names.\n",
       "This should never happen.\n"]
  | CoreError.IndexOutOfRange i len =>
      ["Internal error. Reaching element of index " ++ toString i ++
         " in a list_t of length " ++ toString len,
       "This should never happen.\n"]

/-- Residue name of a residue group, read from its first atom as main.c
does (residues[i]->atoms[0]->residue_name). -/
def res_name : Selection → String
  | [] => ""
  | a :: _ => a.residue_name

/-- Residue number of a residue group, read from its first atom as main.c
does (residues[i]->atoms[0]->residue_number). -/
def res_id : Selection → Int
  | [] => 0
  | a :: _ => a.residue_number

/-- The leaflet classification of main.c lines 163-167: leaflet 1 (upper)
exactly when the signed periodic z displacement of the marker from the
center is strictly positive, else leaflet 0 (lower). -/
def leaflet_class (pos center box : Vec3) : Nat :=
  if distance1D pos center Dim.z box > 0 then 1 else 0

/-- The per-residue body of the loop of create_groups (main.c lines
139-183), up to the choice of the destination group index: intersect the
residue with the marker selection, require a unique marker, classify it,
and look the species up in the residue-name list.  Returns the destination
index 2 * speciesIndex + leafletBit or the error on which the source
aborts. -/
def residueTarget (phosphates : Selection) (center box : Vec3)
    (names : List String) (res : Selection) : Except CoreError Nat :=
  match selection_intersect res phosphates with
  | [] => Except.error (CoreError.MissingMarker (res_name res) (res_id res))
  | [pho] =>
    match list_index names (res_name res) with
    | none => Except.error (CoreError.UnknownSpecies (res_name res) (res_id res))
    | some k => Except.ok (2 * k + leaflet_class pho.position center box)
  | _ :: _ :: _ => Except.error (CoreError.AmbiguousMarker (res_name res) (res_id res))

/-- Replace the element of a list at an index by applying a function to it;
out-of-range indices leave the list unchanged.  Models writing through
(*ndx_groups)[i]. -/
def updateAt {α : Type} : List α → Nat → (α → α) → List α
  | [], _, _ => []
  | g :: gs, 0, f => f g :: gs
  | g :: gs, Nat.succ i, f => g :: updateAt gs i f

/-- The residue loop of create_groups: process residues left to right,
appending each successfully classified residue's atoms to its destination
group (selection_add), aborting on the first failing residue. -/
def groups_loop (phosphates : Selection) (center box : Vec3)
    (names : List String) : List Selection → List Selection →
    Except CoreError (List Selection)
  | [], acc => Except.ok acc
  | res :: rest, acc =>
    match residueTarget phosphates center box names res with
    | Except.error e => Except.error e
    | Except.ok t =>
        groups_loop phosphates center box names rest (updateAt acc t (fun g => g ++ res))

/-- Translation of create_groups (main.c lines 103-195): split the membrane
into residues, compute the membrane center, then classify every residue
into one of 2 * K groups (K = number of distinct residue names), aborting
the whole run on the first malformed residue. -/
def create_groups (membrane phosphates : Selection) (residue_names : List String)
    (box : Vec3) : Except CoreError (List Selection) :=
  let residues := selection_splitbyres membrane
  if residues.length = 0 then Except.error CoreError.EmptySplit
  else
    match center_of_geometry membrane box with
    | none => Except.error CoreError.CenterFail
    | some center =>
      groups_loop phosphates center box residue_names residues
        (List.replicate (residue_names.length * 2) [])

/-- One written ndx group: the header name and the 1-based gmx atom numbers
listed under it (an empty list of numbers is a header with no atom lines).
Models what write_ndx_group (main.c lines 92-100) emits for one group. -/
structure NdxSection where
  name : String
  atomNumbers : List Nat
deriving DecidableEq

/-- The output loop of main (main.c lines 289-311), translated with an
explicit running group index: skip empty groups unless the empty flag is
set, name each group resname_lower / resname_upper from the residue-name
list, and stop with an internal error if the name lookup is out of range.
Returns the sections written before stopping and the error, if any. -/
def write_go (emptyFlag : Bool) (names : List String) :
    Nat → List Selection → List NdxSection × Option CoreError
  | _, [] => ([], none)
  | i, g :: rest =>
    if emptyFlag = false ∧ g.length = 0 then write_go emptyFlag names (i + 1) rest
    else
      match list_get names (i / 2) with
      | none => ([], some (CoreError.IndexOutOfRange (i / 2) names.length))
      | some rn =>
        let nm := rn ++ (if i % 2 = 0 then "_lower" else "_upper")
        let tail_out := write_go emptyFlag names (i + 1) rest
        (⟨nm, g.map (fun a => a.gmx_atom_number)⟩ :: tail_out.1, tail_out.2)

/-- The output loop of main started at group index 0. -/
def write_groups (emptyFlag : Bool) (names : List String)
    (groups : List Selection) : List NdxSection × Option CoreError :=
  write_go emptyFlag names 0 groups

/-- One parsed command line option, modelling the cases of the getopt
switch in get_arguments (main.c lines 35-68); unknown covers any option
character outside "c:n:o:s:p:eh". -/
inductive CliOpt where
  | c (v : String)
  | n (v : String)
  | o (v : String)
  | s (v : String)
  | p (v : String)
  | e
  | h
  | unknown
deriving DecidableEq

/-- The variables get_arguments writes through its out-parameters, plus the
gro_specified flag (main.c lines 22-76 and the initial values in main,
lines 200-205). -/
structure ArgState where
  gro_file : Option String
  ndx_file : String
  output_file : Option String
  selection : String
  phosphate : String
  empty : Bool
  gro_specified : Bool
deriving DecidableEq

/-- The getopt loop of get_arguments: -h and unknown options abort parsing
with failure, the other options overwrite the corresponding variable. -/
def arg_loop : List CliOpt → ArgState → Option ArgState
  | [], st => some st
  | opt :: rest, st =>
    match opt with
    | CliOpt.h => none
    | CliOpt.unknown => none
    | CliOpt.c v => arg_loop rest { st with gro_file := some v, gro_specified := true }
    | CliOpt.n v => arg_loop rest { st with ndx_file := v }
    | CliOpt.o v => arg_loop rest { st with output_file := some v }
    | CliOpt.s v => arg_loop rest { st with selection := v }
    | CliOpt.p v => arg_loop rest { st with phosphate := v }
    | CliOpt.e => arg_loop rest { st with empty := true }

/-- The defaults main installs before parsing (main.c lines 200-205):
ndx file "index.ndx", selection "Membrane", phosphate "name PO4", no
output file, empty flag off. -/
def initial_args : ArgState :=
  ⟨none, "index.ndx", none, "Membrane", "name PO4", false, false⟩

/-- get_arguments of main.c as called from main: run the getopt loop over
the parsed options starting from the defaults, then fail unless -c was
supplied (lines 71-74). -/
def get_arguments (opts : List CliOpt) : Option ArgState :=
  match arg_loop opts initial_args with
  | none => none
  | some st => if st.gro_specified then some st else none

/-- The loaded system as far as the core uses it: the simulation box. -/
structure Sys where
  box : Vec3
deriving DecidableEq

/-- The responses of the external collaborators during one run: the result
of load_gro, the results of the two smart_select queries, the prior
contents of the output file (none when the file does not exist), and
whether opening the output file for writing fails. -/
structure World where
  groResult : Option Sys
  membraneResult : Option Selection
  phosphateResult : Option Selection
  outFilePrev : Option (List NdxSection)
  openFails : Bool
deriving DecidableEq

/-- The observable outcome of one run of main: process exit code, whether
usage was printed, the stderr lines, the sections written to stdout, and
the final contents of the output-file path (unchanged when main never
writes it). -/
structure RunResult where
  exitCode : Nat
  usage : Bool
  stderr : List String
  stdoutSecs : List NdxSection
  fileSecs : Option (List NdxSection)
deriving DecidableEq

/-- Stderr message of main.c line 227 for an unparseable membrane query. -/
def msg_parse (sel : String) : String :=
  "Could not understand the selection query \x27" ++ sel ++ "\x27.\n"

/-- Stderr message of main.c line 236 for an empty membrane selection. -/
def msg_nolipids (sel : String) : String :=
  "No membrane lipids (\x27" ++ sel ++ "\x27) found.\n"

/-- Stderr message of main.c line 248, printed both when the phosphate
query fails to parse and when it matches nothing. -/
def msg_nophos (ph : String) : String :=
  "No phosphates (\x27" ++ ph ++ "\x27) found.\n"

/-- Translation of main (main.c lines 197-325) over the collaborator
responses in a World: parse arguments (usage and exit 1 on failure), load
the gro file, resolve the membrane and phosphate selections with their
error messages, run create_groups (exit 1 and no output on failure), pick
the output destination (stdout when no -o; append when the file exists;
create otherwise), and run the output loop. -/
def run_main (opts : List CliOpt) (w : World) : RunResult :=
  match get_arguments opts with
  | none => ⟨1, true, [], [], w.outFilePrev⟩
  | some args =>
    match w.groResult with
    | none => ⟨1, false, [], [], w.outFilePrev⟩
    | some sys =>
      match w.membraneResult with
      | none => ⟨1, false, [msg_parse args.selection], [], w.outFilePrev⟩
      | some membrane =>
        if membrane.length = 0 then
          ⟨1, false, [msg_nolipids args.selection], [], w.outFilePrev⟩
        else
          match w.phosphateResult with
          | none => ⟨1, false, [msg_nophos args.phosphate], [], w.outFilePrev⟩
          | some phosphates =>
            if phosphates.length = 0 then
              ⟨1, false, [msg_nophos args.phosphate], [], w.outFilePrev⟩
            else
              let residue_names := selection_getresnames membrane
              match create_groups membrane phosphates residue_names sys.box with
              | Except.error e =>
                  ⟨1, false, error_output e ++ ["Failed to create ndx groups.\n"],
                   [], w.outFilePrev⟩
              | Except.ok groups =>
                match args.output_file with
                | none =>
                  let written := write_groups args.empty residue_names groups
                  match written.2 with
                  | some e2 => ⟨1, false, error_output e2, written.1, w.outFilePrev⟩
                  | none => ⟨0, false, [], written.1, w.outFilePrev⟩
                | some _ =>
                  if w.openFails then
                    ⟨1, false, ["The output ndx file could not be opened.\n"],
                     [], w.outFilePrev⟩
                  else
                    let written := write_groups args.empty residue_names groups
                    let newContents :=
                      match w.outFilePrev with
                      | some old => old ++ written.1
                      | none => written.1
                    match written.2 with
                    | some e2 => ⟨1, false, error_output e2, [], some newContents⟩
                    | none => ⟨0, false, [], [], some newContents⟩

/-- Pure form of one iteration of the residue loop: append the residue's
atoms to its destination group, or leave the table unchanged when the
residue fails (the failing case never contributes to a table the loop
returns, since the loop aborts there). -/
def apply_residue (phosphates : Selection) (center box : Vec3)
    (names : List String) (acc : List Selection) (res : Selection) : List Selection :=
  match residueTarget phosphates center box names res with
  | Except.ok t => updateAt acc t (fun g => g ++ res)
  | Except.error _ => acc

/-- Whether a residue is classified (successfully) into group index j. -/
def hits (phosphates : Selection) (center box : Vec3) (names : List String)
    (j : Nat) (r : Selection) : Bool :=
  match residueTarget phosphates center box names r with
  | Except.ok t => decide (t = j)
  | Except.error _ => false

/-- Concrete atom for exercising the selection stages of main. -/
def c5atom : Atom := ⟨1, 1, "POPC", ⟨0, 0, 0⟩⟩

/-- World in which the phosphate query fails to parse (smart_select NULL). -/
def c5worldNull : World := ⟨some ⟨⟨10, 10, 10⟩⟩, some [c5atom], none, none, false⟩

/-- World in which the phosphate query parses but matches nothing. -/
def c5worldEmpty : World := ⟨some ⟨⟨10, 10, 10⟩⟩, some [c5atom], some [], none, false⟩

/-- Concrete four-atom membrane of one species and two residues, used to
exercise the classifier on both leaflets. -/
def wA1a : Atom := ⟨1, 1, "POPC", ⟨0, 0, 2⟩⟩

/-- Second atom of residue 1. -/
def wA1b : Atom := ⟨2, 1, "POPC", ⟨0, 0, 3⟩⟩

/-- Marker atom of residue 2. -/
def wA2a : Atom := ⟨3, 2, "POPC", ⟨0, 0, 8⟩⟩

/-- Second atom of residue 2. -/
def wA2b : Atom := ⟨4, 2, "POPC", ⟨0, 0, 7⟩⟩

/-- The concrete membrane selection. -/
def wmem : Selection := [wA1a, wA1b, wA2a, wA2b]

/-- The concrete marker selection: one marker per residue. -/
def wphos : Selection := [wA1a, wA2a]

/-- A 20x20x20 box in which the concrete coordinates never wrap. -/
def wbox : Vec3 := ⟨20, 20, 20⟩

/-- Center of geometry of the concrete membrane in the concrete box. -/
def wcenter : Vec3 := ⟨0, 0, 5⟩

/-- The group table the concrete membrane classifies into: residue 1 at
z = 2 below the center goes to POPC_lower, residue 2 at z = 8 above it to
POPC_upper. -/
def wgroups : List Selection := [[wA1a, wA1b], [wA2a, wA2b]]

/-- A one-atom residue of species CHOL with no marker in wC1. -/
def wB1 : Atom := ⟨5, 7, "CHOL", ⟨0, 0, 1⟩⟩

/-- A second atom of residue 7, used to build an ambiguous-marker case. -/
def wB2 : Atom := ⟨7, 7, "CHOL", ⟨0, 0, 2⟩⟩

/-- An atom outside residue 7, serving as a marker selection that misses
it. -/
def wC1 : Atom := ⟨6, 9, "CHOL", ⟨0, 0, 4⟩⟩

/-- Arguments of a run started as leaflets2ndx -c m.gro. -/
def wargs : ArgState :=
  ⟨some "m.gro", "index.ndx", none, "Membrane", "name PO4", false, true⟩

/-- Arguments of a run started as leaflets2ndx -c m.gro -o out.ndx. -/
def wargsOut : ArgState :=
  ⟨some "m.gro", "index.ndx", some "out.ndx", "Membrane", "name PO4", false, true⟩

/-- World whose membrane residue 7 has no marker atom. -/
def w4world : World := ⟨some ⟨wbox⟩, some [wB1], some [wC1], none, false⟩

/-- World with a healthy one-atom membrane, to vary one collaborator
response at a time. -/
def wc5base : World := ⟨some ⟨wbox⟩, some [c5atom], some [c5atom], none, false⟩

/-- World for a fully successful run writing into an existing out.ndx. -/
def w8world : World :=
  ⟨some ⟨wbox⟩, some wmem, some wphos, some [⟨"OLD", [9]⟩], false⟩

theorem updateAt_length {α : Type} (l : List α) (i : Nat) (f : α → α) :
    (updateAt l i f).length = l.length := by
  induction l generalizing i with
  | nil => rfl
  | cons g gs ih =>
    cases i with
    | zero => rfl
    | succ i => simp [updateAt, ih]

theorem updateAt_get?_self {α : Type} (l : List α) (i : Nat) (f : α → α) :
    (updateAt l i f).get? i = (l.get? i).map f := by
  induction l generalizing i with
  | nil => rfl
  | cons g gs ih =>
    cases i with
    | zero => rfl
    | succ i => simpa [updateAt] using ih i

theorem updateAt_get?_ne {α : Type} (l : List α) (i j : Nat) (f : α → α)
    (h : j ≠ i) : (updateAt l i f).get? j = l.get? j := by
  induction l generalizing i j with
  | nil => rfl
  | cons g gs ih =>
    cases i with
    | zero =>
      cases j with
      | zero => exact absurd rfl h
      | succ j => rfl
    | succ i =>
      cases j with
      | zero => rfl
      | succ j => simpa [updateAt] using ih i j (fun hji => h (by omega))

theorem foldl_apply_get? (phosphates : Selection) (center box : Vec3)
    (names : List String) :
    ∀ (l : List Selection) (acc : List Selection) (j : Nat),
    (l.foldl (apply_residue phosphates center box names) acc).get? j
      = (acc.get? j).map
          (fun g => g ++ (l.filter (hits phosphates center box names j)).flatten) := by
  intro l
  induction l with
  | nil =>
    intro acc j
    simp only [List.foldl_nil, List.filter_nil, List.flatten_nil, List.append_nil]
    cases acc.get? j <;> rfl
  | cons r rest ih =>
    intro acc j
    rw [List.foldl_cons, ih]
    cases h : residueTarget phosphates center box names r with
    | error e =>
      have happ : apply_residue phosphates center box names acc r = acc := by
        simp [apply_residue, h]
      have hh : hits phosphates center box names j r = false := by
        simp [hits, h]
      rw [happ, List.filter_cons, hh]
      simp
    | ok t =>
      have happ : apply_residue phosphates center box names acc r
          = updateAt acc t (fun g => g ++ r) := by
        simp [apply_residue, h]
      rw [happ]
      by_cases hj : t = j
      · subst hj
        rw [updateAt_get?_self]
        have hh : hits phosphates center box names t r = true := by
          simp [hits, h]
        rw [List.filter_cons, hh]
        cases hacc : acc.get? t <;> simp [hacc, List.append_assoc]
      · rw [updateAt_get?_ne _ _ _ _ (fun hji => hj hji.symm)]
        have hh : hits phosphates center box names j r = false := by
          simp [hits, h, hj]
        rw [List.filter_cons, hh]
        simp

theorem foldl_apply_length (phosphates : Selection) (center box : Vec3)
    (names : List String) :
    ∀ (l : List Selection) (acc : List Selection),
    (l.foldl (apply_residue phosphates center box names) acc).length = acc.length := by
  intro l
  induction l with
  | nil => intro acc; rfl
  | cons r rest ih =>
    intro acc
    rw [List.foldl_cons, ih]
    cases h : residueTarget phosphates center box names r with
    | error e => simp [apply_residue, h]
    | ok t => simp [apply_residue, h, updateAt_length]

theorem groups_loop_ok (phosphates : Selection) (center box : Vec3)
    (names : List String) :
    ∀ (l : List Selection) (acc out : List Selection),
    groups_loop phosphates center box names l acc = Except.ok out →
    (∀ r ∈ l, ∃ t, residueTarget phosphates center box names r = Except.ok t) ∧
      out = l.foldl (apply_residue phosphates center box names) acc := by
  intro l
  induction l with
  | nil =>
    intro acc out h
    refine ⟨by simp, ?_⟩
    simpa [groups_loop] using h.symm
  | cons r rest ih =>
    intro acc out h
    cases hr : residueTarget phosphates center box names r with
    | error e =>
      rw [groups_loop, hr] at h
      exact absurd h (by simp)
    | ok t =>
      rw [groups_loop, hr] at h
      obtain ⟨hall, hout⟩ := ih _ _ h
      refine ⟨?_, ?_⟩
      · intro r2 hr2
        rcases List.mem_cons.mp hr2 with h1 | h2
        · exact ⟨t, h1 ▸ hr⟩
        · exact hall r2 h2
      · rw [List.foldl_cons]
        have happ : apply_residue phosphates center box names acc r
            = updateAt acc t (fun g => g ++ r) := by
          simp [apply_residue, hr]
        rw [happ]
        exact hout

theorem groups_loop_error (phosphates : Selection) (center box : Vec3)
    (names : List String) (e : CoreError) :
    ∀ (l1 : List Selection) (res : Selection) (l2 : List Selection)
      (acc : List Selection),
    (∀ r ∈ l1, ∃ t, residueTarget phosphates center box names r = Except.ok t) →
    residueTarget phosphates center box names res = Except.error e →
    groups_loop phosphates center box names (l1 ++ res :: l2) acc = Except.error e := by
  intro l1
  induction l1 with
  | nil =>
    intro res l2 acc _ hres
    rw [List.nil_append, groups_loop, hres]
  | cons r rest ih =>
    intro res l2 acc hall hres
    obtain ⟨t, ht⟩ := hall r (by simp)
    rw [List.cons_append, groups_loop, ht]
    exact ih res l2 _ (fun r2 h2 => hall r2 (by simp [h2])) hres

theorem list_index_lt_length :
    ∀ (l : List String) (s : String) (k : Nat),
    list_index l s = some k → k < l.length := by
  intro l
  induction l with
  | nil => intro s k h; exact absurd h (by simp [list_index])
  | cons x xs ih =>
    intro s k h
    rw [list_index] at h
    by_cases hx : x = s
    · rw [if_pos hx] at h
      have : k = 0 := by simpa using h.symm
      simp [this]
    · rw [if_neg hx] at h
      cases hi : list_index xs s with
      | none => rw [hi] at h; exact absurd h (by simp)
      | some i =>
        rw [hi] at h
        have hk : k = i + 1 := by simpa using h.symm
        have := ih s i hi
        simp [hk]
        omega

theorem replicate_get? {α : Type} (a : α) :
    ∀ (n j : Nat), (List.replicate n a).get? j = if j < n then some a else none := by
  intro n
  induction n with
  | zero => intro j; simp
  | succ n ih =>
    intro j
    cases j with
    | zero => simp [List.replicate]
    | succ j =>
      rw [List.replicate, List.get?]
      rw [ih j]
      by_cases hj : j < n
      · rw [if_pos hj, if_pos (by omega)]
      · rw [if_neg hj, if_neg (by omega)]

theorem join_mem_split {α : Type} :
    ∀ (L : List (List α)) (l : List α), l ∈ L →
    ∃ pre post, L.flatten = pre ++ l ++ post := by
  intro L
  induction L with
  | nil => intro l h; exact absurd h (by simp)
  | cons g gs ih =>
    intro l h
    rcases List.mem_cons.mp h with h1 | h2
    · exact ⟨[], gs.flatten, by simp [h1]⟩
    · obtain ⟨pre, post, hsplit⟩ := ih l h2
      exact ⟨g ++ pre, post, by simp [hsplit, List.append_assoc]⟩

theorem create_groups_ok_elim (membrane phosphates : Selection)
    (names : List String) (box : Vec3) (groups : List Selection)
    (h : create_groups membrane phosphates names box = Except.ok groups) :
    ∃ center, center_of_geometry membrane box = some center ∧
      (∀ r ∈ selection_splitbyres membrane,
        ∃ t, residueTarget phosphates center box names r = Except.ok t) ∧
      groups = (selection_splitbyres membrane).foldl
        (apply_residue phosphates center box names)
        (List.replicate (names.length * 2) []) := by
  rw [create_groups] at h
  by_cases hn : (selection_splitbyres membrane).length = 0
  · rw [if_pos hn] at h
    exact absurd h (by simp)
  · rw [if_neg hn] at h
    cases hc : center_of_geometry membrane box with
    | none => rw [hc] at h; exact absurd h (by simp)
    | some center =>
      rw [hc] at h
      obtain ⟨hall, hout⟩ := groups_loop_ok phosphates center box names _ _ _ h
      exact ⟨center, rfl, hall, hout⟩

theorem create_groups_error_eq (membrane phosphates : Selection)
    (names : List String) (box : Vec3) (center : Vec3)
    (l1 l2 : List Selection) (res : Selection) (e : CoreError)
    (hsplit : selection_splitbyres membrane = l1 ++ res :: l2)
    (hc : center_of_geometry membrane box = some center)
    (hok : ∀ r ∈ l1, ∃ t, residueTarget phosphates center box names r = Except.ok t)
    (hfail : residueTarget phosphates center box names res = Except.error e) :
    create_groups membrane phosphates names box = Except.error e := by
  rw [create_groups]
  have hn : (selection_splitbyres membrane).length ≠ 0 := by
    rw [hsplit]
    simp
  rw [if_neg hn, hc, hsplit]
  exact groups_loop_error phosphates center box names e l1 res l2 _ hok hfail

theorem leaflet_class_cases (pos center box : Vec3) :
    leaflet_class pos center box = 0 ∨ leaflet_class pos center box = 1 := by
  rw [leaflet_class]
  split
  · exact Or.inr rfl
  · exact Or.inl rfl

theorem residueTarget_unique (phosphates : Selection) (center box : Vec3)
    (names : List String) (res : Selection) (pho : Atom) (k : Nat)
    (hint : selection_intersect res phosphates = [pho])
    (hidx : list_index names (res_name res) = some k) :
    residueTarget phosphates center box names res
      = Except.ok (2 * k + leaflet_class pho.position center box) := by
  rw [residueTarget, hint, hidx]

theorem create_groups_get? (membrane phosphates : Selection)
    (names : List String) (box : Vec3) (groups : List Selection) (center : Vec3)
    (h : create_groups membrane phosphates names box = Except.ok groups)
    (hc : center_of_geometry membrane box = some center) (j : Nat)
    (hj : j < names.length * 2) :
    groups.get? j = some (((selection_splitbyres membrane).filter
      (hits phosphates center box names j)).flatten) := by
  obtain ⟨c2, hc2, _, hout⟩ := create_groups_ok_elim membrane phosphates names box groups h
  rw [hc] at hc2
  have hcc : c2 = center := by
    injection hc2 with h2
    exact h2.symm
  subst hcc
  rw [hout, foldl_apply_get?, replicate_get?, if_pos hj]
  simp

theorem create_groups_placement (membrane phosphates : Selection)
    (names : List String) (box : Vec3) (groups : List Selection) (center : Vec3)
    (res : Selection) (t : Nat)
    (h : create_groups membrane phosphates names box = Except.ok groups)
    (hc : center_of_geometry membrane box = some center)
    (hres : res ∈ selection_splitbyres membrane)
    (ht : residueTarget phosphates center box names res = Except.ok t)
    (hlt : t < names.length * 2) :
    ∃ pre post, groups.get? t = some (pre ++ res ++ post) := by
  have hg := create_groups_get? membrane phosphates names box groups center h hc t hlt
  have hmem : res ∈ (selection_splitbyres membrane).filter
      (hits phosphates center box names t) := by
    refine List.mem_filter.mpr ⟨hres, ?_⟩
    simp [hits, ht]
  obtain ⟨pre, post, hsplit⟩ := join_mem_split _ _ hmem
  exact ⟨pre, post, by rw [hg, hsplit]⟩

/-- C1: for a residue with a unique marker atom, the classifier assigns
leaflet 1 (upper) exactly when the signed periodic z displacement of the
marker from the computed center is strictly positive, and leaflet 0
(lower) exactly when the displacement is at most 0 (including exactly 0);
the residue's atoms are then placed in the corresponding group of the
returned table. -/
theorem claim_C1_leaflet_assignment (membrane phosphates : Selection)
    (names : List String) (box : Vec3) (groups : List Selection) (center : Vec3)
    (res : Selection) (pho : Atom) (k : Nat)
    (h : create_groups membrane phosphates names box = Except.ok groups)
    (hc : center_of_geometry membrane box = some center)
    (hres : res ∈ selection_splitbyres membrane)
    (hint : selection_intersect res phosphates = [pho])
    (hidx : list_index names (res_name res) = some k) :
    (residueTarget phosphates center box names res = Except.ok (2 * k + 1)
      ↔ 0 < distance1D pho.position center Dim.z box) ∧
    (residueTarget phosphates center box names res = Except.ok (2 * k)
      ↔ distance1D pho.position center Dim.z box ≤ 0) ∧
    (0 < distance1D pho.position center Dim.z box →
      ∃ pre post, groups.get? (2 * k + 1) = some (pre ++ res ++ post)) ∧
    (distance1D pho.position center Dim.z box ≤ 0 →
      ∃ pre post, groups.get? (2 * k) = some (pre ++ res ++ post)) := by
  have ht := residueTarget_unique phosphates center box names res pho k hint hidx
  have hk := list_index_lt_length names (res_name res) k hidx
  have hup : 0 < distance1D pho.position center Dim.z box →
      leaflet_class pho.position center box = 1 := by
    intro hd
    rw [leaflet_class, if_pos hd]
  have hlo : distance1D pho.position center Dim.z box ≤ 0 →
      leaflet_class pho.position center box = 0 := by
    intro hd
    rw [leaflet_class, if_neg (by exact fun hgt => absurd hd (not_le.mpr hgt))]
  refine ⟨⟨?_, ?_⟩, ⟨?_, ?_⟩, ?_, ?_⟩
  · intro h1
    by_contra hd
    have hd0 : distance1D pho.position center Dim.z box ≤ 0 := le_of_not_lt hd
    rw [ht, hlo hd0] at h1
    have : 2 * k + 0 = 2 * k + 1 := by injection h1
    omega
  · intro hd
    rw [ht, hup hd]
  · intro h0
    by_contra hd
    have hd1 : 0 < distance1D pho.position center Dim.z box := lt_of_not_le hd
    rw [ht, hup hd1] at h0
    have : 2 * k + 1 = 2 * k := by injection h0
    omega
  · intro hd
    rw [ht, hlo hd]
    simp
  · intro hd
    refine create_groups_placement membrane phosphates names box groups center res _
      h hc hres ?_ (by omega)
    rw [ht, hup hd]
  · intro hd
    refine create_groups_placement membrane phosphates names box groups center res _
      h hc hres ?_ (by omega)
    have := hlo hd
    rw [ht, this]
    simp

/-- C2: a residue whose intersection with the marker selection has zero
atoms aborts the run with MissingMarker reporting its species name and
residue number, one with more than one atom aborts it with
AmbiguousMarker, and in either case no group table is returned (so its
atoms appear in no output group); stated for the first residue on which
the loop fails. -/
theorem claim_C2_marker_errors (membrane phosphates : Selection)
    (names : List String) (box : Vec3) (center : Vec3)
    (l1 l2 : List Selection) (res : Selection)
    (hsplit : selection_splitbyres membrane = l1 ++ res :: l2)
    (hc : center_of_geometry membrane box = some center)
    (hok : ∀ r ∈ l1, ∃ t, residueTarget phosphates center box names r = Except.ok t) :
    (selection_intersect res phosphates = [] →
      create_groups membrane phosphates names box
        = Except.error (CoreError.MissingMarker (res_name res) (res_id res))) ∧
    (1 < (selection_intersect res phosphates).length →
      create_groups membrane phosphates names box
        = Except.error (CoreError.AmbiguousMarker (res_name res) (res_id res))) ∧
    ((selection_intersect res phosphates).length ≠ 1 →
      ∀ groups, create_groups membrane phosphates names box ≠ Except.ok groups) := by
  have hmiss : selection_intersect res phosphates = [] →
      create_groups membrane phosphates names box
        = Except.error (CoreError.MissingMarker (res_name res) (res_id res)) := by
    intro hi
    refine create_groups_error_eq membrane phosphates names box center l1 l2 res _
      hsplit hc hok ?_
    rw [residueTarget, hi]
  have hambi : 1 < (selection_intersect res phosphates).length →
      create_groups membrane phosphates names box
        = Except.error (CoreError.AmbiguousMarker (res_name res) (res_id res)) := by
    intro hlen
    refine create_groups_error_eq membrane phosphates names box center l1 l2 res _
      hsplit hc hok ?_
    cases hi : selection_intersect res phosphates with
    | nil => rw [hi] at hlen; simp at hlen
    | cons a rest =>
      cases rest with
      | nil => rw [hi] at hlen; simp at hlen
      | cons b rest2 => rw [residueTarget, hi]
  refine ⟨hmiss, hambi, ?_⟩
  intro hne groups hcg
  by_cases h0 : selection_intersect res phosphates = []
  · rw [hmiss h0] at hcg
    exact absurd hcg (by simp)
  · have hlen : 1 < (selection_intersect res phosphates).length := by
      have : (selection_intersect res phosphates).length ≠ 0 := by
        simpa [List.length_eq_zero] using h0
      omega
    rw [hambi hlen] at hcg
    exact absurd hcg (by simp)

/-- C3: with K distinct species names the aggregator builds exactly 2K
output groups, the table is returned in full (an entry for every index
below 2K, possibly with no atoms), every bucket holds exactly the
concatenated atom sets of the residues classified to it, and every
successfully classified residue's complete atom set lands in the group at
index 2 * speciesIndex + leafletBit. -/
theorem claim_C3_aggregator (membrane phosphates : Selection)
    (names : List String) (box : Vec3) (groups : List Selection) (center : Vec3)
    (h : create_groups membrane phosphates names box = Except.ok groups)
    (hc : center_of_geometry membrane box = some center) :
    groups.length = 2 * names.length ∧
    (∀ j, j < 2 * names.length →
      groups.get? j = some (((selection_splitbyres membrane).filter
        (hits phosphates center box names j)).flatten)) ∧
    (∀ res ∈ selection_splitbyres membrane, ∀ pho k,
      selection_intersect res phosphates = [pho] →
      list_index names (res_name res) = some k →
      ∃ pre post,
        groups.get? (2 * k + leaflet_class pho.position center box)
          = some (pre ++ res ++ post)) := by
  obtain ⟨c2, hc2, _, hout⟩ := create_groups_ok_elim membrane phosphates names box groups h
  rw [hc] at hc2
  have hcc : c2 = center := by
    injection hc2 with h2
    exact h2.symm
  subst hcc
  refine ⟨?_, ?_, ?_⟩
  · rw [hout, foldl_apply_length]
    simp [Nat.mul_comm]
  · intro j hj
    exact create_groups_get? membrane phosphates names box groups c2 h hc j (by omega)
  · intro res hres pho k hint hidx
    have ht := residueTarget_unique phosphates c2 box names res pho k hint hidx
    have hk := list_index_lt_length names (res_name res) k hidx
    have hcls := leaflet_class_cases pho.position c2 box
    refine create_groups_placement membrane phosphates names box groups c2 res _
      h hc hres ht ?_
    rcases hcls with h0 | h1
    · rw [h0]; omega
    · rw [h1]; omega

theorem strData_append (a b : String) : (a ++ b).data = a.data ++ b.data := by
  cases a
  cases b
  rfl

theorem strLen_append (a b : String) : (a ++ b).length = a.length + b.length := by
  rw [String.length, String.length, String.length, strData_append, List.length_append]

theorem strHead_append (a b : String) (c : Char) (h : a.data.head? = some c) :
    (a ++ b).data.head? = some c := by
  rw [strData_append]
  cases hd : a.data with
  | nil => rw [hd] at h; exact absurd h (by simp)
  | cons x xs =>
    rw [hd] at h
    simpa using h

theorem str_ne_of_head (s t : String) (cs ct : Char)
    (hs : s.data.head? = some cs) (ht : t.data.head? = some ct) (hne : cs ≠ ct) :
    s ≠ t := by
  intro he
  rw [he, ht] at hs
  refine hne ?_
  injection hs with h2
  exact h2.symm

theorem never_happen_not_in_missing (rn : String) (rid : Int) :
    "This should never happen.\n" ∉ error_output (CoreError.MissingMarker rn rid) := by
  rw [error_output]
  intro hmem
  have he := List.mem_singleton.mp hmem
  refine str_ne_of_head _ _ 'T' 'N' (by decide) ?_ (by decide) he
  exact strHead_append _ _ 'N'
    (strHead_append _ _ 'N' (strHead_append _ _ 'N' (strHead_append _ _ 'N' (by decide))))

theorem never_happen_not_in_ambiguous (rn : String) (rid : Int) :
    "This should never happen.\n" ∉ error_output (CoreError.AmbiguousMarker rn rid) := by
  rw [error_output]
  intro hmem
  have he := List.mem_singleton.mp hmem
  refine str_ne_of_head _ _ 'T' 'M' (by decide) ?_ (by decide) he
  exact strHead_append _ _ 'M'
    (strHead_append _ _ 'M' (strHead_append _ _ 'M' (strHead_append _ _ 'M' (by decide))))

/-- C6: a residue whose species name is not found in the species-name list
aborts the run with the internal-consistency error UnknownSpecies (stated
for the first residue on which the loop fails), and its stderr output is
marked as a bug (the extra line This should never happen), a marker absent
from the user-input errors MissingMarker and AmbiguousMarker. -/
theorem claim_C6_unknown_species (membrane phosphates : Selection)
    (names : List String) (box : Vec3) (center : Vec3)
    (l1 l2 : List Selection) (res : Selection) (pho : Atom) (rn : String) (rid : Int)
    (hsplit : selection_splitbyres membrane = l1 ++ res :: l2)
    (hc : center_of_geometry membrane box = some center)
    (hok : ∀ r ∈ l1, ∃ t, residueTarget phosphates center box names r = Except.ok t)
    (hint : selection_intersect res phosphates = [pho])
    (hlookup : list_index names (res_name res) = none) :
    create_groups membrane phosphates names box
      = Except.error (CoreError.UnknownSpecies (res_name res) (res_id res)) ∧
    "This should never happen.\n" ∈ error_output (CoreError.UnknownSpecies rn rid) ∧
    "This should never happen.\n" ∈ error_output (CoreError.IndexOutOfRange 0 0) ∧
    "This should never happen.\n" ∉ error_output (CoreError.MissingMarker rn rid) ∧
    "This should never happen.\n" ∉ error_output (CoreError.AmbiguousMarker rn rid) := by
  refine ⟨?_, ?_, ?_, never_happen_not_in_missing rn rid,
    never_happen_not_in_ambiguous rn rid⟩
  · refine create_groups_error_eq membrane phosphates names box center l1 l2 res _
      hsplit hc hok ?_
    rw [residueTarget, hint, hlookup]
  · rw [error_output]
    simp
  · rw [error_output]
    simp

/-- C4: if the classification of any single residue fails (missing marker,
ambiguous marker, or species-lookup failure, stated for the first residue
on which the loop fails), the whole run exits with code 1 before any
output group is written: nothing goes to stdout and the output file keeps
its prior contents. -/
theorem claim_C4_no_partial_output (opts : List CliOpt) (w : World)
    (args : ArgState) (sys : Sys) (membrane phosphates : Selection)
    (center : Vec3) (l1 l2 : List Selection) (res : Selection) (e : CoreError)
    (hp : get_arguments opts = some args)
    (hg : w.groResult = some sys)
    (hm : w.membraneResult = some membrane)
    (hm0 : membrane.length ≠ 0)
    (hph : w.phosphateResult = some phosphates)
    (hph0 : phosphates.length ≠ 0)
    (hsplit : selection_splitbyres membrane = l1 ++ res :: l2)
    (hc : center_of_geometry membrane sys.box = some center)
    (hok : ∀ r ∈ l1, ∃ t, residueTarget phosphates center sys.box
      (selection_getresnames membrane) r = Except.ok t)
    (hfail : residueTarget phosphates center sys.box
      (selection_getresnames membrane) res = Except.error e) :
    run_main opts w
      = ⟨1, false, error_output e ++ ["Failed to create ndx groups.\n"],
         [], w.outFilePrev⟩ := by
  have hcg := create_groups_error_eq membrane phosphates
    (selection_getresnames membrane) sys.box center l1 l2 res e hsplit hc hok hfail
  rw [run_main]
  simp only [hp, hg, hm, hph, hcg, hm0, hph0, if_false, if_neg]

/-- C5 counterexample: for the marker-atom query, an unparseable query and
an empty selection produce identical observable outcomes (same exit code,
same stderr, same untouched output), so the two are not surfaced
distinctly for that query, contrary to the claim. -/
theorem claim_C5_counterexample :
    run_main [CliOpt.c "m.gro"] c5worldNull = run_main [CliOpt.c "m.gro"] c5worldEmpty ∧
    (run_main [CliOpt.c "m.gro"] c5worldNull).exitCode = 1 ∧
    c5worldNull.phosphateResult = none ∧
    c5worldEmpty.phosphateResult = some [] := by
  refine ⟨?_, ?_, rfl, rfl⟩ <;> rfl

/-- C5 as amended: for the membrane-lipid query the two outcomes are
surfaced distinctly (different stderr messages), but for the marker-atom
query both outcomes collapse to the same No-phosphates error path. -/
theorem claim_C5_amended_distinctness (opts : List CliOpt) (w : World)
    (args : ArgState) (sys : Sys) (membrane : Selection)
    (hp : get_arguments opts = some args)
    (hg : w.groResult = some sys)
    (hm : w.membraneResult = some membrane)
    (hm0 : membrane.length ≠ 0) :
    run_main opts { w with membraneResult := none }
      = ⟨1, false, [msg_parse args.selection], [], w.outFilePrev⟩ ∧
    run_main opts { w with membraneResult := some [] }
      = ⟨1, false, [msg_nolipids args.selection], [], w.outFilePrev⟩ ∧
    msg_parse args.selection ≠ msg_nolipids args.selection ∧
    run_main opts { w with phosphateResult := none }
      = run_main opts { w with phosphateResult := some [] } := by
  refine ⟨?_, ?_, ?_, ?_⟩
  · rw [run_main]
    simp [hp, hg]
  · rw [run_main]
    simp [hp, hg]
  · refine str_ne_of_head _ _ 'C' 'N' ?_ ?_ (by decide)
    · rw [msg_parse]
      exact strHead_append _ _ 'C' (strHead_append _ _ 'C' (by decide))
    · rw [msg_nolipids]
      exact strHead_append _ _ 'N' (strHead_append _ _ 'N' (by decide))
  · rw [run_main, run_main]
    simp [hp, hg, hm, hm0]

theorem write_go_true_eq (names : List String) :
    ∀ (gs : List Selection) (i : Nat), i + gs.length ≤ 2 * names.length →
    write_go true names i gs
      = ((List.enumFrom i gs).map (fun p =>
          (⟨(names.get? (p.1 / 2)).getD ""
              ++ (if p.1 % 2 = 0 then "_lower" else "_upper"),
            p.2.map (fun a => a.gmx_atom_number)⟩ : NdxSection)), none) := by
  intro gs
  induction gs with
  | nil => intro i hb; rfl
  | cons g rest ih =>
    intro i hb
    rw [write_go]
    rw [if_neg (by simp)]
    cases hn : list_get names (i / 2) with
    | none =>
      exfalso
      rw [list_get] at hn
      have hlen := List.get?_eq_none.mp hn
      have hb2 : i + (rest.length + 1) ≤ 2 * names.length := by
        simpa using hb
      omega
    | some rn =>
      have hb2 : (i + 1) + rest.length ≤ 2 * names.length := by
        have : i + (rest.length + 1) ≤ 2 * names.length := by simpa using hb
        omega
      have hrec := ih (i + 1) hb2
      have hgd : (names[i / 2]?).getD "" = rn := by
        rw [list_get, List.get?_eq_getElem?] at hn
        rw [hn]
        rfl
      simp [hrec, List.enumFrom, hgd]

theorem write_go_false_eq (names : List String) :
    ∀ (gs : List Selection) (i : Nat), i + gs.length ≤ 2 * names.length →
    write_go false names i gs
      = ((List.enumFrom i gs).filterMap (fun p =>
          if p.2.length = 0 then none
          else some (⟨(names.get? (p.1 / 2)).getD ""
              ++ (if p.1 % 2 = 0 then "_lower" else "_upper"),
            p.2.map (fun a => a.gmx_atom_number)⟩ : NdxSection)), none) := by
  intro gs
  induction gs with
  | nil => intro i hb; rfl
  | cons g rest ih =>
    intro i hb
    have hb2 : (i + 1) + rest.length ≤ 2 * names.length := by
      have : i + (rest.length + 1) ≤ 2 * names.length := by simpa using hb
      omega
    have hrec := ih (i + 1) hb2
    rw [write_go]
    by_cases hg0 : g.length = 0
    · rw [if_pos (by exact ⟨rfl, hg0⟩)]
      rw [hrec]
      have hgnil : g = [] := List.length_eq_zero.mp hg0
      simp [List.enumFrom, List.filterMap_cons, hgnil]
    · rw [if_neg (by simp [hg0])]
      cases hn : list_get names (i / 2) with
      | none =>
        exfalso
        rw [list_get] at hn
        have hlen := List.get?_eq_none.mp hn
        have hb3 : i + (rest.length + 1) ≤ 2 * names.length := by
          simpa using hb
        omega
      | some rn =>
        have hgd : (names[i / 2]?).getD "" = rn := by
          rw [list_get, List.get?_eq_getElem?] at hn
          rw [hn]
          rfl
        have hgne : ¬(g = []) := by
          intro hcon
          exact hg0 (by simp [hcon])
        simp [hrec, List.enumFrom, List.filterMap_cons, hgd, hgne]

/-- C7: with the include-empty option off, every output group with zero
atoms is omitted from the written output (the writer keeps exactly the
groups with atoms); with it on, every group is written in order, an empty
group producing its header section with no atom lines. -/
theorem claim_C7_empty_group_option (names : List String) (groups : List Selection)
    (h : groups.length = 2 * names.length) :
    write_groups true names groups
      = ((List.enumFrom 0 groups).map (fun p =>
          (⟨(names.get? (p.1 / 2)).getD ""
              ++ (if p.1 % 2 = 0 then "_lower" else "_upper"),
            p.2.map (fun a => a.gmx_atom_number)⟩ : NdxSection)), none) ∧
    write_groups false names groups
      = ((List.enumFrom 0 groups).filterMap (fun p =>
          if p.2.length = 0 then none
          else some (⟨(names.get? (p.1 / 2)).getD ""
              ++ (if p.1 % 2 = 0 then "_lower" else "_upper"),
            p.2.map (fun a => a.gmx_atom_number)⟩ : NdxSection)), none) :=
  ⟨write_go_true_eq names groups 0 (by omega),
   write_go_false_eq names groups 0 (by omega)⟩

/-- C8: destination of the written groups (main.c lines 270-286): with -o
and an existing file the sections are appended after its prior contents,
with -o and no existing file a new file holds exactly the sections, and
without -o the sections go to stdout and no file is touched. -/
theorem claim_C8_output_destination (opts : List CliOpt) (w : World)
    (args : ArgState) (sys : Sys) (membrane phosphates : Selection)
    (groups : List Selection)
    (hp : get_arguments opts = some args)
    (hg : w.groResult = some sys)
    (hm : w.membraneResult = some membrane)
    (hm0 : membrane.length ≠ 0)
    (hph : w.phosphateResult = some phosphates)
    (hph0 : phosphates.length ≠ 0)
    (hcg : create_groups membrane phosphates (selection_getresnames membrane) sys.box
      = Except.ok groups)
    (hopen : w.openFails = false) :
    (∀ path, args.output_file = some path → ∀ old, w.outFilePrev = some old →
      (run_main opts w).fileSecs
        = some (old ++ (write_groups args.empty (selection_getresnames membrane) groups).1)) ∧
    (∀ path, args.output_file = some path → w.outFilePrev = none →
      (run_main opts w).fileSecs
        = some ((write_groups args.empty (selection_getresnames membrane) groups).1)) ∧
    (args.output_file = none →
      (run_main opts w).stdoutSecs
        = (write_groups args.empty (selection_getresnames membrane) groups).1 ∧
      (run_main opts w).fileSecs = w.outFilePrev) := by
  refine ⟨?_, ?_, ?_⟩
  · intro path hout old hprev
    rw [run_main]
    simp only [hp, hg, hm, hph, hcg, hout, hopen, hprev, hm0, hph0]
    cases hw : (write_groups args.empty (selection_getresnames membrane) groups).2 <;>
      simp [hw]
  · intro path hout hprev
    rw [run_main]
    simp only [hp, hg, hm, hph, hcg, hout, hopen, hprev, hm0, hph0]
    cases hw : (write_groups args.empty (selection_getresnames membrane) groups).2 <;>
      simp [hw]
  · intro hout
    rw [run_main]
    simp only [hp, hg, hm, hph, hcg, hout, hm0, hph0]
    cases hw : (write_groups args.empty (selection_getresnames membrane) groups).2 <;>
      simp [hw]

/-- C9: the leaflet classification axis is always z: the classification of
a marker depends only on the z components of the marker position, the
center and the box (the x and y components of all three are immaterial),
and for every residue with a unique marker the loop's destination index is
computed from the z-axis periodic displacement; no parsed command line
option enters this computation. -/
theorem claim_C9_z_axis (p c b : Vec3) (x1 y1 x2 y2 bx bb : Rat) :
    leaflet_class ⟨x1, y1, p.z⟩ ⟨x2, y2, c.z⟩ ⟨bx, bb, b.z⟩ = leaflet_class p c b ∧
    (∀ (phosphates : Selection) (names : List String)
      (res : Selection) (pho : Atom) (k : Nat),
      selection_intersect res phosphates = [pho] →
      list_index names (res_name res) = some k →
      residueTarget phosphates c b names res
        = Except.ok (2 * k +
            (if distance1D pho.position c Dim.z b > 0 then 1 else 0))) := by
  constructor
  · rfl
  · intro phosphates names res pho k hint hidx
    rw [residueTarget, hint, hidx]
    rfl

theorem arg_loop_ndx (opts : List CliOpt) : ∀ (st st' : ArgState),
    (∀ v, CliOpt.n v ∉ opts) → arg_loop opts st = some st' →
    st'.ndx_file = st.ndx_file := by
  induction opts with
  | nil =>
    intro st st' _ h
    have h2 : st = st' := by simpa [arg_loop] using h
    rw [← h2]
  | cons opt rest ih =>
    intro st st' hno h
    cases opt with
    | h => exact absurd h (by simp [arg_loop])
    | unknown => exact absurd h (by simp [arg_loop])
    | n v => exact absurd (by simp) (hno v)
    | c v =>
      have := ih _ _ (fun v2 hv2 => hno v2 (List.mem_cons_of_mem _ hv2))
        (by simpa [arg_loop] using h)
      simpa using this
    | o v =>
      have := ih _ _ (fun v2 hv2 => hno v2 (List.mem_cons_of_mem _ hv2))
        (by simpa [arg_loop] using h)
      simpa using this
    | s v =>
      have := ih _ _ (fun v2 hv2 => hno v2 (List.mem_cons_of_mem _ hv2))
        (by simpa [arg_loop] using h)
      simpa using this
    | p v =>
      have := ih _ _ (fun v2 hv2 => hno v2 (List.mem_cons_of_mem _ hv2))
        (by simpa [arg_loop] using h)
      simpa using this
    | e =>
      have := ih _ _ (fun v2 hv2 => hno v2 (List.mem_cons_of_mem _ hv2))
        (by simpa [arg_loop] using h)
      simpa using this

theorem arg_loop_sel (opts : List CliOpt) : ∀ (st st' : ArgState),
    (∀ v, CliOpt.s v ∉ opts) → arg_loop opts st = some st' →
    st'.selection = st.selection := by
  induction opts with
  | nil =>
    intro st st' _ h
    have h2 : st = st' := by simpa [arg_loop] using h
    rw [← h2]
  | cons opt rest ih =>
    intro st st' hno h
    cases opt with
    | h => exact absurd h (by simp [arg_loop])
    | unknown => exact absurd h (by simp [arg_loop])
    | s v => exact absurd (by simp) (hno v)
    | c v =>
      have := ih _ _ (fun v2 hv2 => hno v2 (List.mem_cons_of_mem _ hv2))
        (by simpa [arg_loop] using h)
      simpa using this
    | o v =>
      have := ih _ _ (fun v2 hv2 => hno v2 (List.mem_cons_of_mem _ hv2))
        (by simpa [arg_loop] using h)
      simpa using this
    | n v =>
      have := ih _ _ (fun v2 hv2 => hno v2 (List.mem_cons_of_mem _ hv2))
        (by simpa [arg_loop] using h)
      simpa using this
    | p v =>
      have := ih _ _ (fun v2 hv2 => hno v2 (List.mem_cons_of_mem _ hv2))
        (by simpa [arg_loop] using h)
      simpa using this
    | e =>
      have := ih _ _ (fun v2 hv2 => hno v2 (List.mem_cons_of_mem _ hv2))
        (by simpa [arg_loop] using h)
      simpa using this

theorem arg_loop_phos (opts : List CliOpt) : ∀ (st st' : ArgState),
    (∀ v, CliOpt.p v ∉ opts) → arg_loop opts st = some st' →
    st'.phosphate = st.phosphate := by
  induction opts with
  | nil =>
    intro st st' _ h
    have h2 : st = st' := by simpa [arg_loop] using h
    rw [← h2]
  | cons opt rest ih =>
    intro st st' hno h
    cases opt with
    | h => exact absurd h (by simp [arg_loop])
    | unknown => exact absurd h (by simp [arg_loop])
    | p v => exact absurd (by simp) (hno v)
    | c v =>
      have := ih _ _ (fun v2 hv2 => hno v2 (List.mem_cons_of_mem _ hv2))
        (by simpa [arg_loop] using h)
      simpa using this
    | o v =>
      have := ih _ _ (fun v2 hv2 => hno v2 (List.mem_cons_of_mem _ hv2))
        (by simpa [arg_loop] using h)
      simpa using this
    | n v =>
      have := ih _ _ (fun v2 hv2 => hno v2 (List.mem_cons_of_mem _ hv2))
        (by simpa [arg_loop] using h)
      simpa using this
    | s v =>
      have := ih _ _ (fun v2 hv2 => hno v2 (List.mem_cons_of_mem _ hv2))
        (by simpa [arg_loop] using h)
      simpa using this
    | e =>
      have := ih _ _ (fun v2 hv2 => hno v2 (List.mem_cons_of_mem _ hv2))
        (by simpa [arg_loop] using h)
      simpa using this

theorem arg_loop_no_c (opts : List CliOpt) : ∀ (st st' : ArgState),
    (∀ v, CliOpt.c v ∉ opts) → arg_loop opts st = some st' →
    st'.gro_specified = st.gro_specified := by
  induction opts with
  | nil =>
    intro st st' _ h
    have h2 : st = st' := by simpa [arg_loop] using h
    rw [← h2]
  | cons opt rest ih =>
    intro st st' hno h
    cases opt with
    | h => exact absurd h (by simp [arg_loop])
    | unknown => exact absurd h (by simp [arg_loop])
    | c v => exact absurd (by simp) (hno v)
    | p v =>
      have := ih _ _ (fun v2 hv2 => hno v2 (List.mem_cons_of_mem _ hv2))
        (by simpa [arg_loop] using h)
      simpa using this
    | o v =>
      have := ih _ _ (fun v2 hv2 => hno v2 (List.mem_cons_of_mem _ hv2))
        (by simpa [arg_loop] using h)
      simpa using this
    | n v =>
      have := ih _ _ (fun v2 hv2 => hno v2 (List.mem_cons_of_mem _ hv2))
        (by simpa [arg_loop] using h)
      simpa using this
    | s v =>
      have := ih _ _ (fun v2 hv2 => hno v2 (List.mem_cons_of_mem _ hv2))
        (by simpa [arg_loop] using h)
      simpa using this
    | e =>
      have := ih _ _ (fun v2 hv2 => hno v2 (List.mem_cons_of_mem _ hv2))
        (by simpa [arg_loop] using h)
      simpa using this

/-- C10: when the corresponding option is absent, the ndx-file path stays
"index.ndx", the membrane query stays "Membrane" and the marker query
stays "name PO4"; the structure file is required: without -c parsing fails
and the program prints usage and exits with code 1 writing nothing, while
-c alone is accepted with all defaults in place. -/
theorem claim_C10_defaults (opts : List CliOpt) :
    (∀ st, get_arguments opts = some st →
      ((∀ v, CliOpt.n v ∉ opts) → st.ndx_file = "index.ndx") ∧
      ((∀ v, CliOpt.s v ∉ opts) → st.selection = "Membrane") ∧
      ((∀ v, CliOpt.p v ∉ opts) → st.phosphate = "name PO4")) ∧
    ((∀ v, CliOpt.c v ∉ opts) →
      get_arguments opts = none ∧
      ∀ w : World, run_main opts w = ⟨1, true, [], [], w.outFilePrev⟩) ∧
    get_arguments [CliOpt.c "conf.gro"]
      = some ⟨some "conf.gro", "index.ndx", none, "Membrane", "name PO4", false, true⟩ := by
  refine ⟨?_, ?_, rfl⟩
  · intro st hst
    have hloop : arg_loop opts initial_args = some st := by
      rw [get_arguments] at hst
      split at hst
      · exact absurd hst (by simp)
      · next st2 heq =>
          split at hst
          · have h2 : st2 = st := by injection hst
            rw [heq, h2]
          · exact absurd hst (by simp)
    exact ⟨fun hn => (arg_loop_ndx opts _ _ hn hloop),
           fun hs => (arg_loop_sel opts _ _ hs hloop),
           fun hph => (arg_loop_phos opts _ _ hph hloop)⟩
  · intro hc
    have hnone : get_arguments opts = none := by
      rw [get_arguments]
      split
      · rfl
      · next st2 heq =>
          have hgs := arg_loop_no_c opts _ _ hc heq
          rw [if_neg (by simp [hgs, initial_args])]
    exact ⟨hnone, fun w => by rw [run_main, hnone]⟩

theorem wmem_cog : center_of_geometry wmem wbox = some wcenter := by
  norm_num [center_of_geometry, center_axis, wrap1D, wmem, wbox, wcenter,
    wA1a, wA1b, wA2a, wA2b]

theorem wmem_groups : create_groups wmem wphos ["POPC"] wbox = Except.ok wgroups := by
  norm_num [create_groups, selection_splitbyres, dedupFirst, dedupFirstAux,
    center_of_geometry, center_axis, wrap1D, groups_loop, residueTarget,
    selection_intersect, list_index, leaflet_class, distance1D, vcomp,
    res_name, res_id, updateAt, wmem, wphos, wbox, wgroups, wA1a, wA1b, wA2a, wA2b]

theorem wmem_groups_resnames :
    create_groups wmem wphos (selection_getresnames wmem) wbox = Except.ok wgroups := by
  have hn : selection_getresnames wmem = ["POPC"] := by decide
  rw [hn]
  exact wmem_groups

theorem wB_cog : center_of_geometry [wB1] wbox = some ⟨0, 0, 1⟩ := by
  norm_num [center_of_geometry, center_axis, wrap1D, wB1, wbox]

theorem wBB_cog : center_of_geometry [wB1, wB2] wbox = some ⟨0, 0, 3 / 2⟩ := by
  norm_num [center_of_geometry, center_axis, wrap1D, wB1, wB2, wbox]

theorem wd_upper : (0 : Rat) < distance1D wA2a.position wcenter Dim.z wbox := by
  norm_num [distance1D, wrap1D, vcomp, wA2a, wcenter, wbox]

theorem wd_lower : distance1D wA1a.position wcenter Dim.z wbox ≤ 0 := by
  norm_num [distance1D, wrap1D, vcomp, wA1a, wcenter, wbox]

/-- Witness for C1 at the concrete membrane: residue 2 (marker above the
center) is assigned leaflet 1 and lands in the upper group, residue 1
(marker below) leaflet 0 and the lower group. -/
theorem claim_C1_witness :
    (0 : Rat) < distance1D wA2a.position wcenter Dim.z wbox ∧
    residueTarget wphos wcenter wbox ["POPC"] [wA2a, wA2b] = Except.ok 1 ∧
    (∃ pre post, wgroups.get? 1 = some (pre ++ [wA2a, wA2b] ++ post)) ∧
    distance1D wA1a.position wcenter Dim.z wbox ≤ 0 ∧
    (∃ pre post, wgroups.get? 0 = some (pre ++ [wA1a, wA1b] ++ post)) := by
  have h2 := claim_C1_leaflet_assignment wmem wphos ["POPC"] wbox wgroups wcenter
    [wA2a, wA2b] wA2a 0 wmem_groups wmem_cog (by decide) (by decide) (by decide)
  have h1 := claim_C1_leaflet_assignment wmem wphos ["POPC"] wbox wgroups wcenter
    [wA1a, wA1b] wA1a 0 wmem_groups wmem_cog (by decide) (by decide) (by decide)
  exact ⟨wd_upper, h2.1.mpr wd_upper, h2.2.2.1 wd_upper, wd_lower, h1.2.2.2 wd_lower⟩

/-- Witness for C2: a residue with no marker atom aborts with
MissingMarker CHOL 7, one with two marker atoms with AmbiguousMarker. -/
theorem claim_C2_witness :
    create_groups [wB1] [wC1] ["CHOL"] wbox
      = Except.error (CoreError.MissingMarker "CHOL" 7) ∧
    create_groups [wB1, wB2] [wB1, wB2] ["CHOL"] wbox
      = Except.error (CoreError.AmbiguousMarker "CHOL" 7) := by
  have h1 := claim_C2_marker_errors [wB1] [wC1] ["CHOL"] wbox ⟨0, 0, 1⟩
    [] [] [wB1] (by decide) wB_cog (by simp)
  have h2 := claim_C2_marker_errors [wB1, wB2] [wB1, wB2] ["CHOL"] wbox ⟨0, 0, 3 / 2⟩
    [] [] [wB1, wB2] (by decide) wBB_cog (by simp)
  exact ⟨h1.1 (by decide), h2.2.1 (by decide)⟩

/-- Witness for C3 at the concrete membrane: the table has 2 entries for 1
species, and residue 2's complete atom set sits in the bucket at index
2 * speciesIndex + leafletBit. -/
theorem claim_C3_witness :
    wgroups.length = 2 * (["POPC"] : List String).length ∧
    (∃ pre post, wgroups.get? (2 * 0 + leaflet_class wA2a.position wcenter wbox)
      = some (pre ++ [wA2a, wA2b] ++ post)) := by
  have h := claim_C3_aggregator wmem wphos ["POPC"] wbox wgroups wcenter
    wmem_groups wmem_cog
  exact ⟨h.1, h.2.2 [wA2a, wA2b] (by decide) wA2a 0 (by decide) (by decide)⟩

/-- Witness for C4: a run whose only residue lacks a marker exits with
code 1, an empty stdout and the output file untouched. -/
theorem claim_C4_witness :
    run_main [CliOpt.c "m.gro"] w4world
      = ⟨1, false, error_output (CoreError.MissingMarker "CHOL" 7)
          ++ ["Failed to create ndx groups.\n"], [], none⟩ := by
  exact claim_C4_no_partial_output [CliOpt.c "m.gro"] w4world wargs ⟨wbox⟩
    [wB1] [wC1] ⟨0, 0, 1⟩ [] [] [wB1] (CoreError.MissingMarker "CHOL" 7)
    (by decide) rfl rfl (by decide) rfl (by decide) (by decide) wB_cog
    (by simp) (by decide)

/-- Witness for C5 as amended: the membrane-query messages differ while
the two marker-query outcomes give identical runs. -/
theorem claim_C5_witness :
    msg_parse "Membrane" ≠ msg_nolipids "Membrane" ∧
    run_main [CliOpt.c "m.gro"] { wc5base with phosphateResult := none }
      = run_main [CliOpt.c "m.gro"] { wc5base with phosphateResult := some [] } := by
  have h := claim_C5_amended_distinctness [CliOpt.c "m.gro"] wc5base wargs ⟨wbox⟩
    [c5atom] (by decide) rfl rfl (by decide)
  exact ⟨h.2.2.1, h.2.2.2⟩

/-- Witness for C6: a residue whose species name is missing from the list
aborts with UnknownSpecies, whose stderr carries the bug-marker line that
the user-input errors lack. -/
theorem claim_C6_witness :
    create_groups wmem wphos ["XXX"] wbox
      = Except.error (CoreError.UnknownSpecies "POPC" 1) ∧
    "This should never happen.\n" ∈ error_output (CoreError.UnknownSpecies "POPC" 1) ∧
    "This should never happen.\n" ∉ error_output (CoreError.MissingMarker "POPC" 1) := by
  have h := claim_C6_unknown_species wmem wphos ["XXX"] wbox wcenter
    [] [[wA2a, wA2b]] [wA1a, wA1b] wA1a "POPC" 1
    (by decide) wmem_cog (by simp) (by decide) (by decide)
  exact ⟨h.1, h.2.1, h.2.2.2.1⟩

/-- Witness for C7: of a one-species table with an empty upper group, the
empty-flag run writes both sections (the empty one with no atom numbers)
and the default run drops the empty one. -/
theorem claim_C7_witness :
    write_groups true ["POPC"] [[wA1a], []]
      = ([⟨"POPC_lower", [1]⟩, ⟨"POPC_upper", []⟩], none) ∧
    write_groups false ["POPC"] [[wA1a], []] = ([⟨"POPC_lower", [1]⟩], none) := by
  have h := claim_C7_empty_group_option ["POPC"] [[wA1a], []] (by decide)
  refine ⟨?_, ?_⟩
  · rw [h.1]
    decide
  · rw [h.2]
    decide

/-- Witness for C8: a successful run with -o onto an existing file appends
the two sections after the prior contents. -/
theorem claim_C8_witness :
    (run_main [CliOpt.c "m.gro", CliOpt.o "out.ndx"] w8world).fileSecs
      = some [⟨"OLD", [9]⟩, ⟨"POPC_lower", [1, 2]⟩, ⟨"POPC_upper", [3, 4]⟩] := by
  have h := claim_C8_output_destination [CliOpt.c "m.gro", CliOpt.o "out.ndx"]
    w8world wargsOut ⟨wbox⟩ wmem wphos wgroups (by decide) rfl rfl (by decide)
    rfl (by decide) wmem_groups_resnames rfl
  have h1 := h.1 "out.ndx" rfl [⟨"OLD", [9]⟩] rfl
  rw [h1]
  decide

/-- Witness for C9: the classification of the concrete upper marker is
unchanged under arbitrary x and y coordinates, and the concrete lower
residue's destination index is computed from the z displacement. -/
theorem claim_C9_witness :
    leaflet_class ⟨9, 9, wA2a.position.z⟩ ⟨7, 7, wcenter.z⟩ ⟨1, 2, wbox.z⟩
      = leaflet_class wA2a.position wcenter wbox ∧
    residueTarget wphos wcenter wbox ["POPC"] [wA1a, wA1b]
      = Except.ok (2 * 0 +
          (if distance1D wA1a.position wcenter Dim.z wbox > 0 then 1 else 0)) := by
  have h := claim_C9_z_axis wA2a.position wcenter wbox 9 9 7 7 1 2
  exact ⟨h.1, h.2 wphos ["POPC"] [wA1a, wA1b] wA1a 0 (by decide) (by decide)⟩

/-- Witness for C10: -c alone parses with the three defaults in place, and
without -c parsing fails and the run only prints usage and exits 1. -/
theorem claim_C10_witness :
    get_arguments [CliOpt.c "conf.gro"]
      = some ⟨some "conf.gro", "index.ndx", none, "Membrane", "name PO4", false, true⟩ ∧
    (⟨some "conf.gro", "index.ndx", none, "Membrane", "name PO4", false, true⟩
      : ArgState).ndx_file = "index.ndx" ∧
    get_arguments [CliOpt.e] = none ∧
    run_main [CliOpt.e] ⟨none, none, none, none, false⟩ = ⟨1, true, [], [], none⟩ := by
  have h1 := claim_C10_defaults [CliOpt.c "conf.gro"]
  have h2 := claim_C10_defaults [CliOpt.e]
  have hst := h1.2.2
  have hnc : ∀ v, CliOpt.c v ∉ ([CliOpt.e] : List CliOpt) := by
    intro v hv
    simp at hv
  have hnn : ∀ v, CliOpt.n v ∉ ([CliOpt.c "conf.gro"] : List CliOpt) := by
    intro v hv
    simp at hv
  exact ⟨hst, (h1.1 _ hst).1 hnn, (h2.2.1 hnc).1, (h2.2.1 hnc).2 _⟩

end Leaflets
